import Mathlib

/-!
Shallow embedding of the vcf-annotator core (`vcfannotator/genbank.py` and
`vcfannotator/annotator.py`).  Python lists are Lean lists, Python strings
are Lean strings, CPython list indexing/slicing semantics (negative wrap,
clamping slice bounds) are modelled explicitly, and the Biopython `Seq`
operations used by the code (complement, reverse_complement, translate) are
modelled by explicit tables.  Fallible operations (IndexError and friends)
return `Option`.
-/

namespace VcfAnnotator

/-! ## CPython list primitives -/

/-- Python `l[i]` for an integer index: negative indices count from the end,
an index out of `[-len, len)` raises IndexError (modelled as `none`). -/
def pyGetI {α : Type} (l : List α) (i : Int) : Option α :=
  if 0 ≤ i then l[i.toNat]?
  else if i.natAbs ≤ l.length then l[(l.length - i.natAbs)]?
  else none

/-- Python `l[i] = x` for an integer index: negative indices count from the
end, an index out of `[-len, len)` raises IndexError (modelled as `none`). -/
def pySetI {α : Type} (l : List α) (i : Int) (x : α) : Option (List α) :=
  if 0 ≤ i then
    if i.toNat < l.length then some (l.set i.toNat x) else none
  else if i.natAbs ≤ l.length then some (l.set (l.length - i.natAbs) x)
  else none

/-- Python `l[s:e]` for non-negative bounds: both bounds are clamped to the
list length and an empty list results when `e ≤ s`. -/
def pySliceNat {α : Type} (l : List α) (s e : Nat) : List α :=
  (l.take e).drop s

/-- Python slice assignment `l[s:e] = xs` for non-negative bounds: the
(clamped) range `[s, max s e)` is removed and `xs` is spliced in; `xs` may
be longer or shorter than the removed range. -/
def pySliceAssign {α : Type} (l : List α) (s e : Nat) (xs : List α) : List α :=
  l.take (min s l.length) ++ xs ++ l.drop (min (max e (min s l.length)) l.length)

/-! ## Biopython `Seq` primitives used by the code -/

/-- Nucleotide complement as applied by Biopython `Seq.complement` (IUPAC
alphabet; symbols with no listed complement pass through unchanged). -/
def complementChar (c : Char) : Char :=
  match c with
  | 'A' => 'T' | 'T' => 'A' | 'C' => 'G' | 'G' => 'C'
  | 'R' => 'Y' | 'Y' => 'R' | 'S' => 'S' | 'W' => 'W'
  | 'K' => 'M' | 'M' => 'K' | 'B' => 'V' | 'V' => 'B'
  | 'D' => 'H' | 'H' => 'D' | 'N' => 'N'
  | x => x

/-- Biopython `Seq.complement` on a whole string. -/
def complementStr (s : String) : String :=
  ⟨s.data.map complementChar⟩

/-- Standard genetic code in TCAG-major order, as used by Biopython
`Seq.translate` with the default table (stop codons are `*`). -/
def standardTable : List Char :=
  "FFLLSSSSYY**CC*WLLLLPPPPHHQQRRRRIIIMTTTTNNKKSSRRVVVVAAAADDEEGGGG".data

/-- Index of a base in TCAG order; `none` for non-ACGT symbols. -/
def baseIdx (c : Char) : Option Nat :=
  match c with
  | 'T' => some 0 | 'C' => some 1 | 'A' => some 2 | 'G' => some 3
  | _ => none

/-- Translate one codon (exactly three symbols); codons containing a
non-ACGT symbol translate to the ambiguous amino acid `X`. -/
def codonToAA (c : List Char) : String :=
  match c with
  | [x, y, z] =>
    match baseIdx x, baseIdx y, baseIdx z with
    | some a, some b, some d => String.singleton (standardTable.getD (16 * a + 4 * b + d) 'X')
    | _, _, _ => "X"
  | _ => "X"

/-- Biopython `Seq.translate` restricted to the inputs the annotator feeds
it (a single codon of at most three symbols): a partial codon of fewer than
three symbols is dropped, yielding the empty protein. -/
def translate (s : String) : String :=
  if s.length < 3 then "" else codonToAA (s.data.take 3)

/-- Python `"".join(parts)`. -/
def strJoin (parts : List String) : String :=
  ⟨(parts.map String.data).flatten⟩

/-! ## Data model -/

/-- One GenBank feature as the code consumes it: `ftype` is
`feature.type`, `start`/`stop` are `feature.location.start` /
`feature.location.end` (0-based half-open), `strand` is `feature.strand`,
and `qualifiers` maps a qualifier key to the first entry of its value list
(`feature.qualifiers[key][0]`). -/
structure Feature where
  ftype : String
  start : Nat
  stop : Nat
  strand : Int
  qualifiers : List (String × String)
  deriving Repr, DecidableEq

/-- One VCF record as the annotator reads it: 1-based `POS`, reference
allele `REF`, alternate allele list `ALT`. -/
structure VCFRecord where
  POS : Int
  REF : String
  ALT : List String
  deriving Repr, DecidableEq

/-- The INFO fields written by the annotator.  `CodonPosition` and
`SNPCodonPosition` hold `none` for the `.` sentinel; `VariantType` holds
`none` when unset (the per-record defaults do not set it). -/
structure Info where
  RefCodon : String
  AltCodon : String
  RefAminoAcid : String
  AltAminoAcid : String
  CodonPosition : Option Int
  SNPCodonPosition : Option Int
  AminoAcidChange : String
  IsSynonymous : Int
  IsTransition : Int
  Comments : String
  IsGenic : String
  LocusTag : String
  Gene : String
  Note : String
  Inference : String
  Product : String
  ProteinID : String
  FeatureType : String
  VariantType : Option String
  deriving Repr, DecidableEq

/-- The per-record defaults set at the top of `annotate_vcf_records`
(annotator.py lines 50-68).  `VariantType` is not among them. -/
def defaultInfo : Info where
  RefCodon := "."
  AltCodon := "."
  RefAminoAcid := "."
  AltAminoAcid := "."
  CodonPosition := none
  SNPCodonPosition := none
  AminoAcidChange := "."
  IsSynonymous := 9
  IsTransition := 9
  Comments := "."
  IsGenic := "0"
  LocusTag := "."
  Gene := "."
  Note := "."
  Inference := "."
  Product := "."
  ProteinID := "."
  FeatureType := "inter_genic"
  VariantType := none

/-! ## GenBank (genbank.py) -/

/-- One step of `GenBank.build_position_index`: a CDS feature writes its
list index over the slice `[start, stop)` of the position index. -/
def indexStep (idx : List (Option Nat)) (p : Nat × Feature) : List (Option Nat) :=
  if p.2.ftype = "CDS" then
    pySliceAssign idx p.2.start p.2.stop (List.replicate (p.2.stop - p.2.start) (some p.1))
  else idx

/-- `GenBank.build_position_index` (genbank.py lines 21-27): start from
`[None] * len(seq)` and mark every CDS feature over its span. -/
def build_position_index (seqLen : Nat) (features : List Feature) : List (Option Nat) :=
  features.enum.foldl indexStep (List.replicate seqLen none)

/-- The `GenBank.index` setter (genbank.py lines 16-19):
`self._index = self.__position_index[value - 1]`, a plain Python list
index of `pos - 1`.  The outer `Option` is IndexError; the inner value is
the slot (a feature index or `None`). -/
def lookup_feature_index (posIndex : List (Option Nat)) (pos : Int) :
    Option (Option Nat) :=
  pyGetI posIndex (pos - 1)

/-- The local `seq` of `GenBank.split_into_codons` (genbank.py lines
44-46): the genome sliced over `[start, stop)`, reverse-complemented when
`strand == -1` (Biopython `reverse_complement` is symbol-wise complement
followed by reversal). -/
def transcribedSeq (genome : List Char) (f : Feature) : List Char :=
  let raw := pySliceNat genome f.start f.stop
  if f.strand = -1 then (raw.map complementChar).reverse else raw

/-- `GenBank.split_into_codons` (genbank.py lines 43-47): the successive
slices `seq[i:i+3]` for `i in range(0, len(seq), 3)` of the transcribed
sequence (`range(0, n, 3)` has `(n + 2) / 3` elements). -/
def split_into_codons (genome : List Char) (f : Feature) : List (List Char) :=
  let s := transcribedSeq genome f
  (List.range ((s.length + 2) / 3)).map (fun i => pySliceNat s (3 * i) (3 * i + 3))

/-- `GenBank.position_in_gene` (genbank.py lines 49-53). -/
def position_in_gene (f : Feature) (pos : Int) : Int :=
  if f.strand = 1 then pos - f.start - 1 else (f.stop : Int) - pos

/-- `GenBank.codon_by_position` (genbank.py lines 37-41): Python 2 `/` and
`%` on ints are floor division and floor modulus, and
`gene_codons[codon_position]` is a plain Python list index. -/
def codon_by_position (genome : List Char) (f : Feature) (pos : Int) :
    Option (List Char × Int × Int) :=
  let codons := split_into_codons genome f
  let gp := position_in_gene f pos
  let cp := Int.fdiv gp 3
  match pyGetI codons cp with
  | none => none
  | some c => some (c, Int.fmod gp 3, cp + 1)

/-- Modelled from the spec: `GenBank.determine_iupac_base` is called by
`Annotator.annotate_vcf_records` but is absent from the provided
`genbank.py`.  The spec fixes the standard 2-fold and 3-fold IUPAC
ambiguity table (A+G→R, C+T→Y, A+C→M, G+T→K, C+G→S, A+T→W, C+G+T→B,
A+G+T→D, A+C+T→H, A+C+G→V) and rejects the full four-base set as
unsupported (`none`). -/
def determine_iupac_base (bases : List String) : Option String :=
  match bases.contains "A", bases.contains "C", bases.contains "G", bases.contains "T" with
  | true, false, true, false => some "R"
  | false, true, false, true => some "Y"
  | true, true, false, false => some "M"
  | false, false, true, true => some "K"
  | false, true, true, false => some "S"
  | true, false, false, true => some "W"
  | false, true, true, true => some "B"
  | true, false, true, true => some "D"
  | true, true, false, true => some "H"
  | true, true, true, false => some "V"
  | _, _, _, _ => none

/-! ## PyVCF record properties (modelled after the vcf library the
annotator uses; no structural variants, alleles are plain base strings) -/

/-- PyVCF `Record.is_snp`: one reference base and every alternate a single
base. -/
def is_snp (r : VCFRecord) : Bool :=
  r.REF.length = 1 && r.ALT.all (fun a => a.length = 1)

/-- PyVCF `Record.is_indel`: the reference spans more than one base, or
some alternate differs in length from the reference. -/
def is_indel (r : VCFRecord) : Bool :=
  r.REF.length > 1 || r.ALT.any (fun a => a.length ≠ r.REF.length)

/-- PyVCF `Record.is_deletion`: a single-alternate indel whose alternate is
shorter than the reference. -/
def is_deletion (r : VCFRecord) : Bool :=
  is_indel r &&
    match r.ALT with
    | [a] => a.length < r.REF.length
    | _ => false

/-- PyVCF `Record.is_transition`: a single-alternate SNP swapping A and G
or C and T. -/
def is_transition (r : VCFRecord) : Bool :=
  match r.ALT with
  | [a] =>
    is_snp r &&
      ((r.REF = "A" && a = "G") || (r.REF = "G" && a = "A") ||
       (r.REF = "C" && a = "T") || (r.REF = "T" && a = "C"))
  | _ => false

/-! ## Annotator (annotator.py) -/

/-- The feature types the annotator copies qualifier data for
(annotator.py lines 13-14). -/
def annotated_features : List String :=
  ["CDS", "tRNA", "rRNA", "ncRNA", "misc_feature"]

/-- The delimiter escaping applied to copied qualifier values
(annotator.py lines 89-96). -/
def escapeChar (c : Char) : String :=
  if c = ';' then "[semi-colon]"
  else if c = ',' then "[comma]"
  else if c = ' ' then "[space]"
  else String.singleton c

/-- Escape a whole qualifier value. -/
def escapeValue (s : String) : String :=
  strJoin (s.data.map escapeChar)

/-- `feature.qualifiers[key][0]` when the key is present. -/
def qualLookup (f : Feature) (key : String) : Option String :=
  (f.qualifiers.find? (fun p => p.1 = key)).map Prod.snd

/-- Copy one qualifier value into an INFO field, escaped, keeping the
current value when the qualifier is absent (annotator.py lines 87-96). -/
def qualField (f : Feature) (key : String) (dflt : String) : String :=
  match qualLookup f key with
  | some v => escapeValue v
  | none => dflt

/-- The feature block of `annotate_vcf_records` (annotator.py lines
71-96): set `FeatureType`, and for annotated feature types set `IsGenic`
for CDS and copy the qualifier-derived fields (the note field reads the
anticodon qualifier for tRNA features). -/
def apply_feature_info (f : Feature) (info : Info) : Info :=
  if f.ftype ∈ annotated_features then
    { info with
      FeatureType := f.ftype
      IsGenic := if f.ftype = "CDS" then "1" else info.IsGenic
      Note := qualField f (if f.ftype = "tRNA" then "anticodon" else "note") info.Note
      LocusTag := qualField f "locus_tag" info.LocusTag
      Gene := qualField f "gene" info.Gene
      Product := qualField f "product" info.Product
      ProteinID := qualField f "protein_id" info.ProteinID
      Inference := qualField f "inference" info.Inference }
  else { info with FeatureType := f.ftype }

/-- The codon/amino-acid block of `annotate_vcf_records` (annotator.py
lines 115-159), entered when `IsGenic` is `1` and the record is not an
indel.  Fails (`none`) where the Python would raise: empty ALT, codon
lookup out of range, or codon shorter than the substitution position. -/
def codon_analysis (genome : List Char) (f : Feature) (r : VCFRecord)
    (info : Info) : Option Info :=
  (r.ALT[0]?).bind fun alt0 =>
  (codon_by_position genome f r.POS).bind fun cjk =>
  let c := cjk.1
  let j := cjk.2.1
  let k := cjk.2.2
  let info := { info with
    RefCodon := (⟨c⟩ : String)
    SNPCodonPosition := some j
    CodonPosition := some k }
  let altBase := if f.strand = -1 then complementStr alt0 else alt0
  let info :=
    if f.strand = -1 then
      { info with
        Comments := "Negative:" ++ complementStr r.REF ++ "->" ++ altBase }
    else info
  (pySetI (c.map String.singleton) j altBase).bind fun pieces =>
  let altCodon := strJoin pieces
  let refAA := translate info.RefCodon
  let altAA := translate altCodon
  let info := { info with
    AltCodon := altCodon
    RefAminoAcid := refAA
    AltAminoAcid := altAA
    AminoAcidChange := refAA ++ toString k ++ altAA }
  if info.VariantType ≠ some "Ambiguous_SNP" then
    some { info with IsSynonymous := if refAA = altAA then 1 else 0 }
  else some info

/-- The variant-typing block alone (annotator.py lines 98-113): indels are
typed `Deletion`/`Insertion`; a multi-alternate record has its ALT
replaced by the IUPAC symbol and is typed `Ambiguous_SNP`; otherwise the
record is typed `SNP` with `IsTransition` set. -/
def variant_typing (r : VCFRecord) (info : Info) : Option (VCFRecord × Info) :=
  if is_indel r then
    some (r, { info with
      VariantType := some (if is_deletion r then "Deletion" else "Insertion") })
  else if r.ALT.length > 1 then
    (determine_iupac_base r.ALT).map fun s =>
      ({ r with ALT := [s] }, { info with VariantType := some "Ambiguous_SNP" })
  else
    some (r, { info with
      IsTransition := if is_transition r then 1 else 0
      VariantType := some "SNP" })

/-- Variant typing followed by the codon/amino-acid block (annotator.py
lines 98-159): after typing, `codon_analysis` runs exactly when the record
is not an indel and `IsGenic` is `1`. -/
def variant_stage (genome : List Char) (feat : Option Feature)
    (r : VCFRecord) (info : Info) : Option (VCFRecord × Info) :=
  if is_indel r then variant_typing r info
  else
    (variant_typing r info).bind fun ri =>
      if ri.2.IsGenic = "1" then
        feat.bind fun f =>
          (codon_analysis genome f ri.1 ri.2).map fun info2 => (ri.1, info2)
      else some ri

/-- One iteration of the loop in `Annotator.annotate_vcf_records`
(annotator.py lines 47-159) on a single record: position lookup, default
INFO fields, feature block, variant typing, codon analysis.  Returns the
(possibly ALT-rewritten) record together with its INFO fields, or `none`
where the Python raises. -/
def annotate_record (genome : List Char) (features : List Feature)
    (posIndex : List (Option Nat)) (r : VCFRecord) :
    Option (VCFRecord × Info) :=
  (lookup_feature_index posIndex r.POS).bind fun slot =>
  (match slot with
   | none => some none
   | some i => (features[i]?).map some : Option (Option Feature)).bind fun feat =>
  let info :=
    match feat with
    | none => defaultInfo
    | some f => apply_feature_info f defaultInfo
  variant_stage genome feat r info

/-! ## Helper lemmas about the list primitives -/

theorem pyGetI_ofNat {α : Type} (l : List α) (n : Nat) : pyGetI l (n : Int) = l[n]? := by
  simp [pyGetI]

theorem pySetI_ofNat {α : Type} (l : List α) (n : Nat) (x : α) (h : n < l.length) :
    pySetI l (n : Int) x = some (l.set n x) := by
  simp [pySetI, h]

theorem pySliceNat_length {α : Type} (l : List α) (s e : Nat) :
    (pySliceNat l s e).length = min e l.length - s := by
  simp [pySliceNat]

theorem pySliceNat_getElem? {α : Type} (l : List α) (s e j : Nat) (h : s + j < e) :
    (pySliceNat l s e)[j]? = l[s + j]? := by
  rw [pySliceNat, List.getElem?_drop]
  simp [List.getElem?_take, h]

theorem pySliceAssign_nil {α : Type} (l : List α) (s e : Nat) (h : e ≤ s) :
    pySliceAssign l s e ([] : List α) = l := by
  rw [pySliceAssign]
  have : min (max e (min s l.length)) l.length = min s l.length := by omega
  rw [this]
  simp

theorem List.set_of_getElem? {α : Type} (l : List α) (n : Nat) (a : α)
    (h : l[n]? = some a) : l.set n a = l := by
  apply List.ext_getElem?
  intro m
  rw [List.getElem?_set]
  split
  · rename_i hm
    subst hm
    have hlt : n < l.length := by
      by_contra hk
      rw [List.getElem?_eq_none (by omega)] at h
      exact Option.noConfusion h
    simp_all
  · rfl

theorem strJoin_map_singleton (c : List Char) :
    strJoin (c.map String.singleton) = (⟨c⟩ : String) := by
  rw [strJoin, List.map_map]
  have : (String.data ∘ String.singleton) = (fun ch => [ch]) := rfl
  rw [this]
  congr 1
  induction c <;> simp_all

theorem complementStr_singleton (ch : Char) :
    complementStr (String.singleton ch) = String.singleton (complementChar ch) := rfl

/-! ## Helper lemmas about the codon resolver -/

theorem transcribedSeq_length (genome : List Char) (f : Feature)
    (h3 : f.stop ≤ genome.length) :
    (transcribedSeq genome f).length = f.stop - f.start := by
  rw [transcribedSeq]
  split <;> simp [pySliceNat_length] <;> omega

theorem split_into_codons_length (genome : List Char) (f : Feature) :
    (split_into_codons genome f).length = ((transcribedSeq genome f).length + 2) / 3 := by
  simp [split_into_codons]

theorem split_into_codons_getElem? (genome : List Char) (f : Feature) (k : Nat)
    (hk : k < ((transcribedSeq genome f).length + 2) / 3) :
    (split_into_codons genome f)[k]? =
      some (pySliceNat (transcribedSeq genome f) (3 * k) (3 * k + 3)) := by
  rw [split_into_codons, List.getElem?_map, List.getElem?_range hk]
  rfl

theorem codon_piece_length (s : List Char) (k : Nat) :
    (pySliceNat s (3 * k) (3 * k + 3)).length = min 3 (s.length - 3 * k) := by
  rw [pySliceNat_length]
  omega

theorem codon_piece_getElem? (s : List Char) (g : Nat) :
    (pySliceNat s (3 * (g / 3)) (3 * (g / 3) + 3))[g % 3]? = s[g]? := by
  rw [pySliceNat_getElem? _ _ _ _ (by omega)]
  congr 1
  omega

theorem transcribedSeq_getElem_pos (genome : List Char) (f : Feature) (g : Nat)
    (hs : f.strand ≠ -1) (h3 : f.stop ≤ genome.length) (hg : g < f.stop - f.start) :
    (transcribedSeq genome f)[g]? = genome[f.start + g]? := by
  rw [transcribedSeq]
  simp only [if_neg hs]
  exact pySliceNat_getElem? _ _ _ _ (by omega)

theorem transcribedSeq_getElem_neg (genome : List Char) (f : Feature) (g : Nat)
    (hs : f.strand = -1) (h3 : f.stop ≤ genome.length) (hg : g < f.stop - f.start) :
    (transcribedSeq genome f)[g]? = (genome[f.stop - 1 - g]?).map complementChar := by
  rw [transcribedSeq]
  simp only [if_pos hs]
  have hraw : (pySliceNat genome f.start f.stop).length = f.stop - f.start := by
    rw [pySliceNat_length]
    omega
  rw [List.getElem?_reverse (by rw [List.length_map, hraw]; omega)]
  rw [List.getElem?_map, List.length_map, hraw]
  rw [pySliceNat_getElem? _ _ _ _ (by omega)]
  congr 2
  omega

theorem codon_by_position_spec (genome : List Char) (f : Feature) (p : Int) (g : Nat)
    (hpg : position_in_gene f p = (g : Int))
    (hg : g < (transcribedSeq genome f).length) :
    codon_by_position genome f p =
      some (pySliceNat (transcribedSeq genome f) (3 * (g / 3)) (3 * (g / 3) + 3),
            ((g % 3 : Nat) : Int), ((g / 3 : Nat) : Int) + 1) := by
  rw [codon_by_position, hpg]
  have hdiv : Int.fdiv (g : Int) 3 = ((g / 3 : Nat) : Int) := by
    rw [Int.fdiv_eq_ediv _ (by omega)]
    exact (Int.ofNat_ediv g 3).symm
  have hmod : Int.fmod (g : Int) 3 = ((g % 3 : Nat) : Int) := by
    rw [Int.fmod_eq_emod _ (by omega)]
    exact (Int.ofNat_emod g 3).symm
  rw [hdiv, hmod, pyGetI_ofNat,
    split_into_codons_getElem? genome f (g / 3) (by omega)]

/-- The in-gene offset is `position_in_gene` and lies in `[0, stop - start)`
for a position inside the feature span. -/
theorem position_in_gene_bounds (f : Feature) (p : Int)
    (hs : f.strand = 1 ∨ f.strand = -1)
    (h1 : (f.start : Int) + 1 ≤ p) (h2 : p ≤ (f.stop : Int)) :
    0 ≤ position_in_gene f p ∧ position_in_gene f p < (f.stop : Int) - f.start := by
  rw [position_in_gene]
  rcases hs with hs | hs <;> rw [hs] <;> simp <;> omega

/-! ## Claim theorems: codon resolver -/

/-- C1: for a variant position `p` (1-based) inside a coding feature, the
codon resolver computes the transcribed offset as `p - start - 1` on
strand `+1` and `stop - p` on strand `-1`, and returns the codon at index
`offset / 3` of the cached codon list, `position_in_codon = offset % 3`,
and 1-based `codon_index = offset / 3 + 1`. -/
theorem claim_C1_theorem (genome : List Char) (f : Feature) (p off : Int)
    (hs : f.strand = 1 ∨ f.strand = -1)
    (hoff : off = if f.strand = 1 then p - f.start - 1 else (f.stop : Int) - p)
    (h1 : (f.start : Int) + 1 ≤ p) (h2 : p ≤ (f.stop : Int))
    (h3 : f.stop ≤ genome.length) :
    ∃ c, (split_into_codons genome f)[off.toNat / 3]? = some c ∧
      codon_by_position genome f p = some (c, off % 3, off / 3 + 1) := by
  have hpg : position_in_gene f p = off := by
    rw [position_in_gene, hoff]
  obtain ⟨hge, hlt⟩ := position_in_gene_bounds f p hs h1 h2
  rw [hpg] at hge hlt
  have hcast : off = ((off.toNat : Nat) : Int) := by omega
  have hg : off.toNat < (transcribedSeq genome f).length := by
    rw [transcribedSeq_length genome f h3]
    omega
  refine ⟨pySliceNat (transcribedSeq genome f) (3 * (off.toNat / 3)) (3 * (off.toNat / 3) + 3),
    ?_, ?_⟩
  · exact split_into_codons_getElem? genome f _ (by omega)
  · rw [codon_by_position_spec genome f p off.toNat (by rw [hpg]; omega) hg]
    have hm : ((off.toNat % 3 : Nat) : Int) = off % 3 := by omega
    have hd : ((off.toNat / 3 : Nat) : Int) = off / 3 := by omega
    rw [hm, hd]

/-- C2: the codon table of a coding feature is built from the reference
subsequence over `[start, stop)`, reverse-complemented exactly when the
strand is `-1`, split left-to-right into consecutive non-overlapping
triplets; it has `ceil(L / 3) = (L + 2) / 3` codons and the final triplet
is kept short (unpadded) when `L` is not a multiple of 3. -/
theorem claim_C2_theorem (genome : List Char) (f : Feature)
    (hse : f.start ≤ f.stop) (h3 : f.stop ≤ genome.length) :
    (transcribedSeq genome f =
       if f.strand = -1
       then ((pySliceNat genome f.start f.stop).map complementChar).reverse
       else pySliceNat genome f.start f.stop) ∧
    split_into_codons genome f =
      (List.range ((f.stop - f.start + 2) / 3)).map
        (fun i => ((transcribedSeq genome f).drop (3 * i)).take 3) ∧
    (split_into_codons genome f).length = (f.stop - f.start + 2) / 3 ∧
    ∀ i, i < (f.stop - f.start + 2) / 3 →
      ((split_into_codons genome f).getD i []).length =
        min 3 (f.stop - f.start - 3 * i) := by
  have hlen : (transcribedSeq genome f).length = f.stop - f.start :=
    transcribedSeq_length genome f h3
  refine ⟨rfl, ?_, ?_, ?_⟩
  · rw [split_into_codons, hlen]
    apply List.map_congr_left
    intro i _
    rw [pySliceNat]
    exact List.take_drop (3 * i) 3 (transcribedSeq genome f) ▸ rfl
  · rw [split_into_codons_length, hlen]
  · intro i hi
    have h := split_into_codons_getElem? genome f i (by omega)
    rw [List.getD_eq_getElem?_getD, h]
    rw [Option.getD_some, codon_piece_length, hlen]

/-- The strand-corrected reference base sits at the in-codon position of
the codon returned for a position inside the feature span. -/
theorem codon_char_of_span (genome : List Char) (f : Feature) (p : Int) (b : Char)
    (hs : f.strand = 1 ∨ f.strand = -1)
    (h1 : (f.start : Int) + 1 ≤ p) (h2 : p ≤ (f.stop : Int))
    (h3 : f.stop ≤ genome.length)
    (hb : genome[p.toNat - 1]? = some b) :
    ∃ (cd : List Char) (j k : Int), codon_by_position genome f p = some (cd, j, k) ∧ 0 ≤ j ∧
      cd[j.toNat]? = some (if f.strand = 1 then b else complementChar b) ∧
      j.toNat < cd.length := by
  obtain ⟨hge, hlt⟩ := position_in_gene_bounds f p hs h1 h2
  set g : Nat := (position_in_gene f p).toNat with hgdef
  have hpg : position_in_gene f p = (g : Int) := by omega
  have hgL : g < f.stop - f.start := by omega
  have hg : g < (transcribedSeq genome f).length := by
    rw [transcribedSeq_length genome f h3]
    omega
  refine ⟨_, _, _, codon_by_position_spec genome f p g hpg hg, by omega, ?hc, ?hl⟩
  case hl =>
    have htoNat : (((g % 3 : Nat) : Int)).toNat = g % 3 := by omega
    rw [htoNat, codon_piece_length]
    omega
  have htoNat : (((g % 3 : Nat) : Int)).toNat = g % 3 := by omega
  rw [htoNat, codon_piece_getElem? (transcribedSeq genome f) g]
  rcases hs with hs1 | hsm
  · rw [if_pos hs1]
    rw [transcribedSeq_getElem_pos genome f g (by rw [hs1]; decide) h3 hgL]
    have : f.start + g = p.toNat - 1 := by
      rw [hgdef, position_in_gene, if_pos hs1]
      omega
    rw [this, hb]
  · rw [if_neg (by rw [hsm]; decide)]
    rw [transcribedSeq_getElem_neg genome f g hsm h3 hgL]
    have : f.stop - 1 - g = p.toNat - 1 := by
      rw [hgdef, position_in_gene, if_neg (by rw [hsm]; decide)]
      omega
    rw [this, hb]
    rfl

/-! ## Helper lemmas about the annotator pipeline -/

theorem pySetI_nonneg {α : Type} (l : List α) (i : Int) (x : α)
    (h0 : 0 ≤ i) (h : i.toNat < l.length) :
    pySetI l i x = some (l.set i.toNat x) := by
  rw [pySetI, if_pos h0, if_pos h]

theorem apply_feature_info_untouched (f : Feature) (info : Info) :
    (apply_feature_info f info).RefCodon = info.RefCodon ∧
    (apply_feature_info f info).AltCodon = info.AltCodon ∧
    (apply_feature_info f info).CodonPosition = info.CodonPosition ∧
    (apply_feature_info f info).SNPCodonPosition = info.SNPCodonPosition ∧
    (apply_feature_info f info).IsSynonymous = info.IsSynonymous ∧
    (apply_feature_info f info).IsTransition = info.IsTransition ∧
    (apply_feature_info f info).Comments = info.Comments ∧
    (apply_feature_info f info).VariantType = info.VariantType := by
  rw [apply_feature_info]
  split <;> simp

theorem apply_feature_info_IsGenic_CDS (f : Feature) (info : Info)
    (hCDS : f.ftype = "CDS") :
    (apply_feature_info f info).IsGenic = "1" := by
  rw [apply_feature_info, if_pos (by rw [hCDS]; simp [annotated_features])]
  simp [hCDS]

theorem annotate_record_genic (genome : List Char) (features : List Feature)
    (posIndex : List (Option Nat)) (r : VCFRecord) (i : Nat) (f : Feature)
    (hslot : lookup_feature_index posIndex r.POS = some (some i))
    (hfeat : features[i]? = some f) :
    annotate_record genome features posIndex r =
      variant_stage genome (some f) r (apply_feature_info f defaultInfo) := by
  rw [annotate_record, hslot, Option.some_bind]
  show ((features[i]?).map some).bind _ = _
  rw [hfeat, Option.map_some', Option.some_bind]

theorem annotate_record_intergenic (genome : List Char) (features : List Feature)
    (posIndex : List (Option Nat)) (r : VCFRecord)
    (hslot : lookup_feature_index posIndex r.POS = some none) :
    annotate_record genome features posIndex r =
      variant_stage genome none r defaultInfo := by
  rw [annotate_record, hslot, Option.some_bind]
  rfl

theorem variant_typing_single (r : VCFRecord) (info : Info)
    (hindel : is_indel r = false) (hlen : ¬ r.ALT.length > 1) :
    variant_typing r info =
      some (r, { info with
        IsTransition := if is_transition r then 1 else 0
        VariantType := some "SNP" }) := by
  rw [variant_typing, if_neg (by simp [hindel]), if_neg hlen]

theorem variant_typing_multi (r : VCFRecord) (info : Info) (s : String)
    (hindel : is_indel r = false) (hlen : r.ALT.length > 1)
    (hiupac : determine_iupac_base r.ALT = some s) :
    variant_typing r info =
      some ({ r with ALT := [s] },
        { info with VariantType := some "Ambiguous_SNP" }) := by
  rw [variant_typing, if_neg (by simp [hindel]), if_pos hlen, hiupac, Option.map_some']

theorem variant_stage_nonindel (genome : List Char) (feat : Option Feature)
    (r : VCFRecord) (info : Info) (hindel : is_indel r = false) :
    variant_stage genome feat r info =
      (variant_typing r info).bind fun ri =>
        if ri.2.IsGenic = "1" then
          feat.bind fun f =>
            (codon_analysis genome f ri.1 ri.2).map fun info2 => (ri.1, info2)
        else some ri := by
  rw [variant_stage, if_neg (by simp [hindel])]

theorem codon_analysis_VariantType (genome : List Char) (f : Feature)
    (r : VCFRecord) (info info2 : Info)
    (h : codon_analysis genome f r info = some info2) :
    info2.VariantType = info.VariantType := by
  simp only [codon_analysis, Option.bind_eq_some] at h
  obtain ⟨a0, _, cjk, _, pieces, _, h⟩ := h
  split at h <;> split at h <;>
    exact (Option.some_inj.mp h) ▸ rfl

/-- Closed-form description of a successful `codon_analysis` run. -/
theorem codon_analysis_spec (genome : List Char) (f : Feature) (r : VCFRecord)
    (info : Info) (cd : List Char) (j k : Int) (a : String)
    (halt : r.ALT[0]? = some a)
    (hcodon : codon_by_position genome f r.POS = some (cd, j, k))
    (hj : 0 ≤ j) (hjlen : j.toNat < cd.length) :
    ∃ info2, codon_analysis genome f r info = some info2 ∧
      info2.RefCodon = (⟨cd⟩ : String) ∧
      info2.SNPCodonPosition = some j ∧
      info2.CodonPosition = some k ∧
      info2.AltCodon = strJoin ((cd.map String.singleton).set j.toNat
        (if f.strand = -1 then complementStr a else a)) ∧
      info2.Comments = (if f.strand = -1
        then "Negative:" ++ complementStr r.REF ++ "->" ++ complementStr a
        else info.Comments) ∧
      info2.IsSynonymous = (if info.VariantType ≠ some "Ambiguous_SNP"
        then (if translate (⟨cd⟩ : String) =
                 translate (strJoin ((cd.map String.singleton).set j.toNat
                   (if f.strand = -1 then complementStr a else a)))
              then 1 else 0)
        else info.IsSynonymous) ∧
      info2.VariantType = info.VariantType := by
  rw [codon_analysis, halt, Option.some_bind, hcodon, Option.some_bind]
  have hlen : j.toNat < (cd.map String.singleton).length := by
    rw [List.length_map]
    exact hjlen
  by_cases hstr : f.strand = -1
  · simp only [if_pos hstr]
    rw [pySetI_nonneg _ j _ hj hlen, Option.some_bind]
    by_cases hVT : info.VariantType ≠ some "Ambiguous_SNP"
    · rw [if_pos hVT]
      exact ⟨_, rfl, rfl, rfl, rfl, rfl, rfl, by rw [if_pos hVT], rfl⟩
    · rw [if_neg hVT]
      exact ⟨_, rfl, rfl, rfl, rfl, rfl, rfl, by rw [if_neg hVT], rfl⟩
  · simp only [if_neg hstr]
    rw [pySetI_nonneg _ j _ hj hlen, Option.some_bind]
    by_cases hVT : info.VariantType ≠ some "Ambiguous_SNP"
    · rw [if_pos hVT]
      exact ⟨_, rfl, rfl, rfl, rfl, rfl, rfl, by rw [if_pos hVT], rfl⟩
    · rw [if_neg hVT]
      exact ⟨_, rfl, rfl, rfl, rfl, rfl, rfl, by rw [if_neg hVT], rfl⟩

/-! ## Claim theorems: annotator pipeline -/

/-- C3: for a genic non-indel variant on a reverse-strand feature, the base
substituted into the codon is the complement of the (possibly
IUPAC-resolved) alternate allele, `Comments` is
`Negative:<complement-of-REF>-><complement-of-alt>`, and `AltCodon` is
`RefCodon` with the symbol at the in-codon position replaced by the
complemented alternate base. -/
theorem claim_C3_theorem (genome : List Char) (features : List Feature)
    (posIndex : List (Option Nat)) (r : VCFRecord) (i : Nat) (f : Feature)
    (cd : List Char) (j k : Int) (alts : List String) (a : String)
    (hslot : lookup_feature_index posIndex r.POS = some (some i))
    (hfeat : features[i]? = some f)
    (hCDS : f.ftype = "CDS")
    (hstrand : f.strand = -1)
    (hindel : is_indel r = false)
    (htyped : (if r.ALT.length > 1 then (determine_iupac_base r.ALT).map (fun s => [s])
               else some r.ALT) = some alts)
    (ha : alts[0]? = some a)
    (hcodon : codon_by_position genome f r.POS = some (cd, j, k))
    (hj : 0 ≤ j) (hjlen : j.toNat < cd.length) :
    ∃ rec2 info, annotate_record genome features posIndex r = some (rec2, info) ∧
      info.Comments = "Negative:" ++ complementStr r.REF ++ "->" ++ complementStr a ∧
      info.RefCodon = (⟨cd⟩ : String) ∧
      info.AltCodon = strJoin ((cd.map String.singleton).set j.toNat (complementStr a)) := by
  rw [annotate_record_genic genome features posIndex r i f hslot hfeat,
      variant_stage_nonindel genome (some f) r _ hindel]
  by_cases hlen : r.ALT.length > 1
  · rw [if_pos hlen] at htyped
    obtain ⟨s, hds, hs2⟩ := Option.map_eq_some'.mp htyped
    subst hs2
    have hsa : s = a := by
      simpa using ha
    subst hsa
    rw [variant_typing_multi r _ s hindel hlen hds, Option.some_bind]
    rw [if_pos (show ((apply_feature_info f defaultInfo : Info)).IsGenic = "1" from
          apply_feature_info_IsGenic_CDS f defaultInfo hCDS)]
    rw [Option.some_bind]
    have halt0 : ({ r with ALT := [s] } : VCFRecord).ALT[0]? = some s := rfl
    have hcodon2 : codon_by_position genome f ({ r with ALT := [s] } : VCFRecord).POS =
        some (cd, j, k) := hcodon
    obtain ⟨info2, h2, hRef, _, _, hAlt, hCom, _, _⟩ :=
      codon_analysis_spec genome f { r with ALT := [s] }
        { apply_feature_info f defaultInfo with VariantType := some "Ambiguous_SNP" }
        cd j k s halt0 hcodon2 hj hjlen
    rw [h2, Option.map_some']
    refine ⟨_, info2, rfl, ?_, hRef, ?_⟩
    · rw [hCom, if_pos hstrand]
    · rw [hAlt, if_pos hstrand]
  · rw [if_neg hlen] at htyped
    have hs2 : alts = r.ALT := (Option.some_inj.mp htyped).symm
    subst hs2
    rw [variant_typing_single r _ hindel hlen, Option.some_bind]
    rw [if_pos (show ((apply_feature_info f defaultInfo : Info)).IsGenic = "1" from
          apply_feature_info_IsGenic_CDS f defaultInfo hCDS)]
    rw [Option.some_bind]
    obtain ⟨info2, h2, hRef, _, _, hAlt, hCom, _, _⟩ :=
      codon_analysis_spec genome f r
        { apply_feature_info f defaultInfo with
          IsTransition := if is_transition r then 1 else 0
          VariantType := some "SNP" }
        cd j k a ha hcodon hj hjlen
    rw [h2, Option.map_some']
    refine ⟨r, info2, rfl, ?_, hRef, ?_⟩
    · rw [hCom, if_pos hstrand]
    · rw [hAlt, if_pos hstrand]

/-- C4: a non-indel record with more than one alternate allele is typed
`Ambiguous_SNP` and its alternate-allele list is replaced by the single
IUPAC ambiguity symbol before any further processing. -/
theorem claim_C4_theorem (genome : List Char) (features : List Feature)
    (posIndex : List (Option Nat)) (r r2 : VCFRecord) (info : Info) (s : String)
    (hindel : is_indel r = false) (hmulti : r.ALT.length > 1)
    (hiupac : determine_iupac_base r.ALT = some s)
    (hres : annotate_record genome features posIndex r = some (r2, info)) :
    r2.ALT = [s] ∧ info.VariantType = some "Ambiguous_SNP" := by
  rw [annotate_record] at hres
  obtain ⟨slot, _, hres⟩ := Option.bind_eq_some.mp hres
  obtain ⟨feat, _, hres⟩ := Option.bind_eq_some.mp hres
  rw [variant_stage_nonindel genome feat r _ hindel,
      variant_typing_multi r _ s hindel hmulti hiupac, Option.some_bind] at hres
  split at hres
  · obtain ⟨f, _, hres⟩ := Option.bind_eq_some.mp hres
    obtain ⟨i2, hi2, hpair⟩ := Option.map_eq_some'.mp hres
    have hvt := codon_analysis_VariantType genome f _ _ i2 hi2
    cases hpair
    exact ⟨rfl, by rw [hvt]⟩
  · cases Option.some_inj.mp hres
    exact ⟨rfl, rfl⟩

/-- C5 (amended): the lookup converts the 1-based position `q` to the
Python index `q - 1`; for `0 ≤ q - 1 < n` it returns the slot, for
`-n ≤ q - 1 < 0` it silently wraps to the slot `n + (q - 1)` (it does not
fail), and it raises only when `q - 1` is outside `[-n, n)`. -/
theorem claim_C5_theorem (idx : List (Option Nat)) (q : Int) :
    ((0 ≤ q - 1 ∧ q - 1 < (idx.length : Int)) →
      lookup_feature_index idx q = idx[(q - 1).toNat]?) ∧
    ((-(idx.length : Int) ≤ q - 1 ∧ q - 1 < 0) →
      lookup_feature_index idx q = idx[idx.length - (q - 1).natAbs]? ∧
      lookup_feature_index idx q ≠ none) ∧
    (((idx.length : Int) ≤ q - 1 ∨ q - 1 < -(idx.length : Int)) →
      lookup_feature_index idx q = none) := by
  refine ⟨?_, ?_, ?_⟩
  · rintro ⟨h0, _⟩
    rw [lookup_feature_index, pyGetI, if_pos h0]
  · rintro ⟨hge, hlt⟩
    have h0 : ¬ (0 ≤ q - 1) := by omega
    have hle : (q - 1).natAbs ≤ idx.length := by omega
    rw [lookup_feature_index, pyGetI, if_neg h0, if_pos hle]
    refine ⟨rfl, ?_⟩
    have hin : idx.length - (q - 1).natAbs < idx.length := by omega
    simp [List.getElem?_eq_getElem hin]
  · intro h
    rw [lookup_feature_index, pyGetI]
    rcases h with h | h
    · rw [if_pos (by omega)]
      exact List.getElem?_eq_none (by omega)
    · rw [if_neg (by omega), if_neg (by omega)]

/-- C7 (amended): `build_position_index` performs no validation: a CDS
feature with `stop ≤ start` marks no positions (the build step is the
identity on the index), and the strand is never inspected during
construction. -/
theorem claim_C7_theorem (idx : List (Option Nat)) (i : Nat) (f : Feature) :
    (f.stop ≤ f.start → indexStep idx (i, f) = idx) ∧
    (∀ s, indexStep idx (i, { f with strand := s }) = indexStep idx (i, f)) := by
  constructor
  · intro h
    rw [indexStep]
    split
    · show pySliceAssign idx f.start f.stop (List.replicate (f.stop - f.start) (some i)) = idx
      rw [show f.stop - f.start = 0 from by omega, List.replicate_zero]
      exact pySliceAssign_nil idx f.start f.stop h
    · rfl
  · intro s
    rfl

/-- A successful `variant_typing` run leaves the record unchanged when the
record is an indel or has at most one alternate allele. -/
theorem variant_typing_keeps_record (r : VCFRecord) (info : Info)
    (ri : VCFRecord × Info)
    (hsingle : r.ALT.length ≤ 1 ∨ is_indel r = true)
    (h : variant_typing r info = some ri) :
    ri.1 = r := by
  rw [variant_typing] at h
  by_cases hind : is_indel r = true
  · rw [if_pos (by simp [hind])] at h
    rw [← Option.some_inj.mp h]
  · rw [if_neg (by simp [hind])] at h
    have hlen : ¬ r.ALT.length > 1 := by
      rcases hsingle with h1 | h1
      · omega
      · exact absurd h1 hind
    rw [if_neg hlen] at h
    rw [← Option.some_inj.mp h]

/-- A successful `variant_stage` run leaves the record unchanged when the
record is an indel or has at most one alternate allele. -/
theorem variant_stage_keeps_record (genome : List Char) (feat : Option Feature)
    (r : VCFRecord) (info : Info) (r1 : VCFRecord) (i1 : Info)
    (hsingle : r.ALT.length ≤ 1 ∨ is_indel r = true)
    (h : variant_stage genome feat r info = some (r1, i1)) :
    r1 = r := by
  rw [variant_stage] at h
  by_cases hind : is_indel r = true
  · rw [if_pos (by simp [hind])] at h
    exact variant_typing_keeps_record r info (r1, i1) hsingle h
  · rw [if_neg (by simp [hind])] at h
    obtain ⟨ri, hri, hk⟩ := Option.bind_eq_some.mp h
    have hr : ri.1 = r := variant_typing_keeps_record r info ri hsingle hri
    split at hk
    · obtain ⟨f, _, hk⟩ := Option.bind_eq_some.mp hk
      obtain ⟨i2, _, hpair⟩ := Option.map_eq_some'.mp hk
      cases hpair
      exact hr
    · rw [Option.some_inj.mp hk] at hr
      exact hr

/-- C8 (amended): annotation is idempotent for every record that is an
indel or has at most one alternate allele: such a record is returned
unchanged, so re-annotating it reproduces the same result.  (Multi-allele
substitution records are rewritten to the IUPAC symbol by the first run,
so a second run types them `SNP` instead of `Ambiguous_SNP`.) -/
theorem claim_C8_theorem (genome : List Char) (features : List Feature)
    (posIndex : List (Option Nat)) (r r1 : VCFRecord) (i1 : Info)
    (hsingle : r.ALT.length ≤ 1 ∨ is_indel r = true)
    (hres : annotate_record genome features posIndex r = some (r1, i1)) :
    r1 = r ∧ annotate_record genome features posIndex r1 = some (r1, i1) := by
  have hr : r1 = r := by
    rw [annotate_record] at hres
    obtain ⟨slot, _, hres⟩ := Option.bind_eq_some.mp hres
    obtain ⟨feat, _, hres⟩ := Option.bind_eq_some.mp hres
    exact variant_stage_keeps_record genome feat r _ r1 i1 hsingle hres
  refine ⟨hr, ?_⟩
  subst hr
  exact hres

/-- C6 (amended): a variant overlapping no coding feature keeps
`FeatureType = inter_genic`, `IsGenic = 0` and every codon/amino-acid
field at its sentinel, but variant typing still runs: a single-alternate
non-indel record is typed `SNP` and `IsTransition` is set. -/
theorem claim_C6_theorem (genome : List Char) (features : List Feature)
    (posIndex : List (Option Nat)) (r : VCFRecord) (a : String)
    (hslot : lookup_feature_index posIndex r.POS = some none)
    (hindel : is_indel r = false)
    (halt : r.ALT = [a]) :
    annotate_record genome features posIndex r =
      some (r, { defaultInfo with
        IsTransition := if is_transition r then 1 else 0
        VariantType := some "SNP" }) := by
  rw [annotate_record_intergenic genome features posIndex r hslot,
      variant_stage_nonindel genome none r defaultInfo hindel,
      variant_typing_single r defaultInfo hindel (by rw [halt]; simp),
      Option.some_bind]
  rw [if_neg (by simp [defaultInfo])]

/-- C10: for a 1-based position `p` inside a coding feature span, the
symbol at `position_in_codon` within the returned codon equals the
reference base at `p` on strand `+1` and its complement on strand `-1`. -/
theorem claim_C10_theorem (genome : List Char) (f : Feature) (p : Int) (b : Char)
    (hs : f.strand = 1 ∨ f.strand = -1)
    (h1 : (f.start : Int) + 1 ≤ p) (h2 : p ≤ (f.stop : Int))
    (h3 : f.stop ≤ genome.length)
    (hb : genome[p.toNat - 1]? = some b) :
    ∃ (cd : List Char) (j k : Int), codon_by_position genome f p = some (cd, j, k) ∧ 0 ≤ j ∧
      cd[j.toNat]? = some (if f.strand = 1 then b else complementChar b) := by
  obtain ⟨cd, j, k, hcdn, hj, hchar, _⟩ := codon_char_of_span genome f p b hs h1 h2 h3 hb
  exact ⟨cd, j, k, hcdn, hj, hchar⟩

/-- C9: a genic single-allele SNP whose alternate allele equals the
reference base at that position yields an alternate codon equal to the
reference codon and `IsSynonymous = 1`. -/
theorem claim_C9_theorem (genome : List Char) (features : List Feature)
    (posIndex : List (Option Nat)) (r : VCFRecord) (i : Nat) (f : Feature) (b : Char)
    (hslot : lookup_feature_index posIndex r.POS = some (some i))
    (hfeat : features[i]? = some f)
    (hCDS : f.ftype = "CDS")
    (hs : f.strand = 1 ∨ f.strand = -1)
    (h1 : (f.start : Int) + 1 ≤ r.POS) (h2 : r.POS ≤ (f.stop : Int))
    (h3 : f.stop ≤ genome.length)
    (hb : genome[r.POS.toNat - 1]? = some b)
    (halt : r.ALT = [String.singleton b])
    (hindel : is_indel r = false) :
    ∃ info, annotate_record genome features posIndex r = some (r, info) ∧
      info.AltCodon = info.RefCodon ∧ info.IsSynonymous = 1 := by
  obtain ⟨cd, j, k, hcodon, hj, hchar, hjlen⟩ :=
    codon_char_of_span genome f r.POS b hs h1 h2 h3 hb
  have halt0 : r.ALT[0]? = some (String.singleton b) := by
    rw [halt]
    rfl
  rw [annotate_record_genic genome features posIndex r i f hslot hfeat,
      variant_stage_nonindel genome (some f) r _ hindel,
      variant_typing_single r _ hindel (by rw [halt]; simp), Option.some_bind]
  rw [if_pos (show ((apply_feature_info f defaultInfo : Info)).IsGenic = "1" from
        apply_feature_info_IsGenic_CDS f defaultInfo hCDS)]
  rw [Option.some_bind]
  obtain ⟨info2, h2eq, hRef, _, _, hAlt, _, hSyn, _⟩ :=
    codon_analysis_spec genome f r
      { apply_feature_info f defaultInfo with
        IsTransition := if is_transition r then 1 else 0
        VariantType := some "SNP" }
      cd j k (String.singleton b) halt0 hcodon hj hjlen
  have hsub : (if f.strand = -1 then complementStr (String.singleton b)
               else String.singleton b) =
      String.singleton (if f.strand = 1 then b else complementChar b) := by
    rcases hs with hs1 | hsm
    · rw [if_neg (by rw [hs1]; decide), if_pos hs1]
    · rw [if_pos hsm, if_neg (by rw [hsm]; decide), complementStr_singleton]
  have hset : (cd.map String.singleton).set j.toNat
      (String.singleton (if f.strand = 1 then b else complementChar b)) =
      cd.map String.singleton := by
    apply List.set_of_getElem?
    rw [List.getElem?_map, hchar]
    rfl
  have hAltRef : info2.AltCodon = info2.RefCodon := by
    rw [hAlt, hsub, hset, strJoin_map_singleton, hRef]
  refine ⟨info2, ?_, hAltRef, ?_⟩
  · rw [h2eq, Option.map_some']
  · rw [hSyn, if_pos (by simp), if_pos (by rw [hsub, hset, strJoin_map_singleton])]

/-! ## Concrete instances (from the spec scenarios) -/

/-- Toy reference genome `ATGAAATAG`. -/
def exGenome : List Char := "ATGAAATAG".data

/-- Forward-strand CDS spanning the whole toy genome. -/
def exCDSplus : Feature := ⟨"CDS", 0, 9, 1, []⟩

/-- Reverse-strand CDS spanning the whole toy genome. -/
def exCDSminus : Feature := ⟨"CDS", 0, 9, -1, []⟩

/-- Position index over the forward-strand feature. -/
def exIndexPlus : List (Option Nat) := build_position_index 9 [exCDSplus]

/-- Position index over the reverse-strand feature. -/
def exIndexMinus : List (Option Nat) := build_position_index 9 [exCDSminus]

/-- Position index with no coding feature at all. -/
def exEmptyIndex : List (Option Nat) := build_position_index 9 []

/-- Length-3 index whose only marked slot is the last one. -/
def exTailIndex : List (Option Nat) := build_position_index 3 [⟨"CDS", 2, 3, 1, []⟩]

/-! ## Counterexamples -/

/-- C5 counterexample: at `q = 0` the index `q - 1 = -1` lies outside
`[0, n)`, yet the lookup does not fail: Python negative indexing silently
wraps to the last slot. -/
theorem claim_C5_counterexample :
    lookup_feature_index exTailIndex 0 = some (some 0) ∧
    lookup_feature_index exTailIndex 0 ≠ none := by
  exact ⟨by decide, by decide⟩

/-- C6 counterexample: an intergenic single-alternate substitution does
not stop after the lookup: `VariantType` is set to `SNP` (its default is
unset) and `IsTransition` is set to `1` (its default is `9`). -/
theorem claim_C6_counterexample :
    (annotate_record exGenome [] exEmptyIndex ⟨4, "A", ["G"]⟩).map
      (fun p => (p.2.VariantType, p.2.IsTransition)) = some (some "SNP", 1) := by
  decide

/-- C7 counterexample: a feature with `stop ≤ start` and strand `5` is not
rejected: the index builds without error and simply contains no marks. -/
theorem claim_C7_counterexample :
    build_position_index 4 [⟨"CDS", 3, 1, 5, []⟩] = List.replicate 4 none := by
  decide

/-- C8 counterexample: annotating a multi-alternate record rewrites its
ALT to the IUPAC symbol `R`, so a second annotation of the resulting
record is typed `SNP`, not `Ambiguous_SNP`: the two runs disagree. -/
theorem claim_C8_counterexample :
    (annotate_record exGenome [] exEmptyIndex ⟨4, "C", ["A", "G"]⟩).map
      (fun p => p.1) = some ⟨4, "C", ["R"]⟩ ∧
    (annotate_record exGenome [] exEmptyIndex ⟨4, "C", ["A", "G"]⟩).map
      (fun p => p.2.VariantType) = some (some "Ambiguous_SNP") ∧
    (annotate_record exGenome [] exEmptyIndex ⟨4, "C", ["R"]⟩).map
      (fun p => p.2.VariantType) = some (some "SNP") := by
  exact ⟨by decide, by decide, by decide⟩

/-! ## Witnesses -/

/-- Witness for C1 at position 5 of the forward-strand toy feature. -/
theorem claim_C1_witness :
    exCDSplus.strand = 1 ∧
    (∃ c, (split_into_codons exGenome exCDSplus)[(4 : Int).toNat / 3]? = some c ∧
      codon_by_position exGenome exCDSplus 5 = some (c, (4 : Int) % 3, (4 : Int) / 3 + 1)) :=
  ⟨rfl, claim_C1_theorem exGenome exCDSplus 5 4 (Or.inl rfl) (by decide) (by decide)
    (by decide) (by decide)⟩

/-- Witness for C2 on the reverse-strand toy feature. -/
theorem claim_C2_witness :
    exCDSminus.start ≤ exCDSminus.stop ∧
    ((transcribedSeq exGenome exCDSminus =
       if exCDSminus.strand = -1
       then ((pySliceNat exGenome exCDSminus.start exCDSminus.stop).map complementChar).reverse
       else pySliceNat exGenome exCDSminus.start exCDSminus.stop) ∧
     split_into_codons exGenome exCDSminus =
       (List.range ((exCDSminus.stop - exCDSminus.start + 2) / 3)).map
         (fun i => ((transcribedSeq exGenome exCDSminus).drop (3 * i)).take 3) ∧
     (split_into_codons exGenome exCDSminus).length =
       (exCDSminus.stop - exCDSminus.start + 2) / 3 ∧
     ∀ i, i < (exCDSminus.stop - exCDSminus.start + 2) / 3 →
       ((split_into_codons exGenome exCDSminus).getD i []).length =
         min 3 (exCDSminus.stop - exCDSminus.start - 3 * i)) :=
  ⟨by decide, claim_C2_theorem exGenome exCDSminus (by decide) (by decide)⟩

/-- Witness for C3: reverse-strand genic SNP at position 9 with alternate
`A`. -/
theorem claim_C3_witness :
    exCDSminus.strand = -1 ∧
    (∃ rec2 info,
      annotate_record exGenome [exCDSminus] exIndexMinus ⟨9, "G", ["A"]⟩ =
        some (rec2, info) ∧
      info.Comments = "Negative:" ++ complementStr "G" ++ "->" ++ complementStr "A" ∧
      info.RefCodon = (⟨"CTA".data⟩ : String) ∧
      info.AltCodon = strJoin ((("CTA".data).map String.singleton).set (0 : Int).toNat
        (complementStr "A"))) :=
  ⟨rfl, claim_C3_theorem exGenome [exCDSminus] exIndexMinus ⟨9, "G", ["A"]⟩ 0 exCDSminus
    ("CTA".data) 0 1 ["A"] "A" (by decide) (by decide) (by decide) rfl (by decide)
    (by decide) (by decide) (by decide) (by decide) (by decide)⟩

/-- Witness for C4: the intergenic record with alternates `A` and `G` is
rewritten to `R` and typed `Ambiguous_SNP`. -/
theorem claim_C4_witness :
    is_indel ⟨4, "C", ["A", "G"]⟩ = false ∧
    (∃ r2 info,
      annotate_record exGenome [] exEmptyIndex ⟨4, "C", ["A", "G"]⟩ = some (r2, info) ∧
      r2.ALT = ["R"] ∧ info.VariantType = some "Ambiguous_SNP") := by
  refine ⟨by decide, ?_⟩
  obtain ⟨r2, info, hres⟩ :
      ∃ r2 info, annotate_record exGenome [] exEmptyIndex ⟨4, "C", ["A", "G"]⟩ =
        some (r2, info) := ⟨_, _, rfl⟩
  obtain ⟨ha, hv⟩ := claim_C4_theorem exGenome [] exEmptyIndex _ r2 info "R"
    (by decide) (by decide) (by decide) hres
  exact ⟨r2, info, hres, ha, hv⟩

/-- Witness for C5 (amended): the silent-wrap case at `q = 0`. -/
theorem claim_C5_witness :
    lookup_feature_index exTailIndex 0 =
      exTailIndex[exTailIndex.length - ((0 : Int) - 1).natAbs]? ∧
    lookup_feature_index exTailIndex 0 ≠ none :=
  (claim_C5_theorem exTailIndex 0).2.1 (by decide)

/-- Witness for C6 (amended): the intergenic SNP still gets typed. -/
theorem claim_C6_witness :
    lookup_feature_index exEmptyIndex 4 = some none ∧
    annotate_record exGenome [] exEmptyIndex ⟨4, "A", ["G"]⟩ =
      some (⟨4, "A", ["G"]⟩, { defaultInfo with
        IsTransition := if is_transition ⟨4, "A", ["G"]⟩ then 1 else 0
        VariantType := some "SNP" }) :=
  ⟨by decide, claim_C6_theorem exGenome [] exEmptyIndex ⟨4, "A", ["G"]⟩ "G"
    (by decide) (by decide) (by decide)⟩

/-- Witness for C7 (amended): a `stop ≤ start` CDS feature is a no-op for
the index build. -/
theorem claim_C7_witness :
    (⟨"CDS", 3, 1, 1, []⟩ : Feature).stop ≤ (⟨"CDS", 3, 1, 1, []⟩ : Feature).start ∧
    indexStep [none, none] (0, ⟨"CDS", 3, 1, 1, []⟩) = [none, none] :=
  ⟨by decide, (claim_C7_theorem [none, none] 0 ⟨"CDS", 3, 1, 1, []⟩).1 (by decide)⟩

/-- Witness for C8 (amended): a single-alternate genic SNP record is
returned unchanged and re-annotating reproduces the result. -/
theorem claim_C8_witness :
    (⟨5, "A", ["G"]⟩ : VCFRecord).ALT.length ≤ 1 ∧
    (∃ r1 i1,
      annotate_record exGenome [exCDSplus] exIndexPlus ⟨5, "A", ["G"]⟩ = some (r1, i1) ∧
      r1 = ⟨5, "A", ["G"]⟩ ∧
      annotate_record exGenome [exCDSplus] exIndexPlus r1 = some (r1, i1)) := by
  refine ⟨by decide, ?_⟩
  obtain ⟨r1, i1, hres⟩ :
      ∃ r1 i1, annotate_record exGenome [exCDSplus] exIndexPlus ⟨5, "A", ["G"]⟩ =
        some (r1, i1) := ⟨_, _, rfl⟩
  obtain ⟨hr, hre⟩ := claim_C8_theorem exGenome [exCDSplus] exIndexPlus _ r1 i1
    (Or.inl (by decide)) hres
  exact ⟨r1, i1, hres, hr, hre⟩

/-- Witness for C9: identity substitution at position 5 of the toy
forward-strand gene. -/
theorem claim_C9_witness :
    exGenome[(5 : Int).toNat - 1]? = some 'A' ∧
    (∃ info,
      annotate_record exGenome [exCDSplus] exIndexPlus ⟨5, "A", ["A"]⟩ =
        some (⟨5, "A", ["A"]⟩, info) ∧
      info.AltCodon = info.RefCodon ∧ info.IsSynonymous = 1) :=
  ⟨by decide, claim_C9_theorem exGenome [exCDSplus] exIndexPlus ⟨5, "A", ["A"]⟩ 0 exCDSplus
    'A' (by decide) (by decide) (by decide) (Or.inl rfl) (by decide) (by decide)
    (by decide) (by decide) (by decide) (by decide)⟩

/-- Witness for C10: the genomically last base of the reverse-strand
feature maps to in-codon position 0 of the first codon, complemented. -/
theorem claim_C10_witness :
    exGenome[(9 : Int).toNat - 1]? = some 'G' ∧
    (∃ (cd : List Char) (j k : Int),
      codon_by_position exGenome exCDSminus 9 = some (cd, j, k) ∧ 0 ≤ j ∧
      cd[j.toNat]? = some (if exCDSminus.strand = 1 then 'G' else complementChar 'G')) :=
  ⟨by decide, claim_C10_theorem exGenome exCDSminus 9 'G' (Or.inr rfl) (by decide)
    (by decide) (by decide) (by decide)⟩

end VcfAnnotator
